import Mathlib

/-!
Verification development for the `pomfrit` metrics exporter.

This file gives a shallow embedding of the parts of the source that the
frozen claims are about:

* `src/utils.rs` — the one-shot completion signal (`Trigger`,
  `TriggerReceiver`, their shared `State` with a `complete` flag, a
  waker map keyed by receiver id, and a `next_id` counter);
* `src/exporter.rs` — the double buffer (`Buffers`, `MetricsBuffer`),
  the scheduler wait loop (`MetricsExporterHandle::wait`), the refresh
  loop (`MetricsWriter::spawn`), the reconfiguration entry point
  (`MetricsExporter::reload`), and the HTTP request handler installed
  by `reload`.

Stateful Rust code is modelled by explicit state passing; async
suspension points become explicit events or action traces; machine
integers become `Nat` (overflow is irrelevant at the sizes involved);
the waker `HashMap` becomes an association list whose keys are kept
duplicate-free, which is exactly the map abstraction a hash map
provides.
-/

namespace Pomfrit

/-! ## One-shot completion signal (`src/utils.rs`) -/

/-- Identity of a registered waker. The Rust `Waker` is opaque; only its
identity (for `will_wake`) and the act of waking it matter here. -/
abbrev Waker := Nat

/-- Shared state of the signal: `struct State` in `src/utils.rs`.
`wakers` models the `HashMap<usize, Waker>` as an association list. -/
structure TriggerState where
  complete : Bool
  wakers : List (Nat × Waker)
  next_id : Nat
deriving DecidableEq, Repr

/-- The `trigger()` constructor in `src/utils.rs`: fresh shared state with
`complete = false`, an empty waker map, and `next_id = 1`; the first
receiver has id `0`. -/
def triggerInit : TriggerState :=
  { complete := false, wakers := [], next_id := 1 }

/-- Lookup in the waker map (`HashMap::get`-like view used by the
entry API). -/
def lookupW : List (Nat × Waker) → Nat → Option Waker
  | [], _ => none
  | (k, v) :: rest, id => if k = id then some v else lookupW rest id

/-- Removal of the entry of a receiver from the waker map
(`HashMap::remove` in `Drop for TriggerReceiver`). -/
def eraseW : List (Nat × Waker) → Nat → List (Nat × Waker)
  | [], _ => []
  | (k, v) :: rest, id => if k = id then rest else (k, v) :: eraseW rest id

/-- Insert-or-replace in the waker map (the `entry` API used by
`poll`: an occupied entry is overwritten in place, a vacant entry is
inserted). -/
def setW : List (Nat × Waker) → Nat → Waker → List (Nat × Waker)
  | [], id, w => [(id, w)]
  | (k, v) :: rest, id, w => if k = id then (id, w) :: rest else (k, v) :: setW rest id w

/-- Number of entries for a given receiver id. -/
def keyCount (l : List (Nat × Waker)) (id : Nat) : Nat :=
  (l.filter (fun e => e.1 = id)).length

/-- The map abstraction invariant of the Rust `HashMap`: at most one
entry per key. -/
def keysNodup (l : List (Nat × Waker)) : Prop :=
  (l.map Prod.fst).Nodup

instance (l : List (Nat × Waker)) : Decidable (keysNodup l) := by
  unfold keysNodup; infer_instance

/-- Model of `Trigger::trigger` in `src/utils.rs`: `swap(true)` on the
`complete` flag; if it was already set, return with no effect;
otherwise take the whole waker map and wake every waker in it. The
second component is the list of wakers woken by this call. -/
def Trigger.trigger (s : TriggerState) : TriggerState × List Waker :=
  if s.complete then (s, [])
  else ({ s with complete := true, wakers := [] }, s.wakers.map Prod.snd)

/-- Result of polling a future. -/
inductive Poll where
  | ready
  | pending
deriving DecidableEq, Repr

/-- Model of `Future::poll` for `TriggerReceiver` in `src/utils.rs`: if
`complete` is set, resolve; otherwise register `w` for receiver `id`
through the entry API — an occupied entry is kept when the stored
waker `will_wake` the new one and replaced otherwise; a vacant entry
is inserted — and stay pending. `willWake` abstracts
`Waker::will_wake`. -/
def pollReceiver (willWake : Waker → Waker → Bool) (id : Nat) (w : Waker)
    (s : TriggerState) : TriggerState × Poll :=
  if s.complete then (s, .ready)
  else
    match lookupW s.wakers id with
    | some w2 =>
      if willWake w w2 then (s, .pending)
      else ({ s with wakers := setW s.wakers id w }, .pending)
    | none => ({ s with wakers := setW s.wakers id w }, .pending)

/-- Model of `Drop for TriggerReceiver` in `src/utils.rs`: an unresolved
receiver removes its own entry from the wake set; after firing there
is nothing to remove. -/
def dropReceiver (id : Nat) (s : TriggerState) : TriggerState :=
  if s.complete then s else { s with wakers := eraseW s.wakers id }

/-- Model of `Clone for TriggerReceiver` in `src/utils.rs`: a clone takes a
fresh id from the monotone counter. Returns the id of the new receiver. -/
def cloneReceiver (s : TriggerState) : TriggerState × Nat :=
  ({ s with next_id := s.next_id + 1 }, s.next_id)

/-- Any operation that can touch the shared signal state after
creation. -/
inductive TOp where
  | trig
  | pollO (id : Nat) (w : Waker)
  | dropO (id : Nat)
  | cloneO
deriving DecidableEq, Repr

/-- Step function applying one operation to the shared state. -/
def stepOp (willWake : Waker → Waker → Bool) (s : TriggerState) : TOp → TriggerState
  | .trig => (Trigger.trigger s).1
  | .pollO id w => (pollReceiver willWake id w s).1
  | .dropO id => dropReceiver id s
  | .cloneO => (cloneReceiver s).1

/-! ## Double buffer (`Buffers` in `src/exporter.rs`) -/

/-- The constant `BUFFER_COUNT` in `src/exporter.rs`. -/
def BUFFER_COUNT : Nat := 2

/-- Model of `struct Buffers`: two string buffers and the index of the current
(reader-visible) one. The `RwLock` around each buffer and the atomic
index are modelled by plain fields in this sequential embedding. -/
structure Buffers where
  data : Fin 2 → String
  current_buffer : Fin 2

/-- The derived `Default` state: both buffers empty, current index 0. -/
def Buffers.init : Buffers :=
  { data := fun _ => "", current_buffer := 0 }

/-- The index the writer targets: `(current_buffer + 1) % BUFFER_COUNT`. -/
def Buffers.nextBuffer (s : Buffers) : Fin 2 :=
  ⟨((s.current_buffer : Nat) + 1) % BUFFER_COUNT, Nat.mod_lt _ (by decide)⟩

/-- The write handle returned by `acquire_buffer`: remembers which
buffer it owns (`next_buffer`); the guard itself is the exclusive
access to `data[next_buffer]`. -/
structure MetricsBuffer where
  next_buffer : Fin 2
deriving DecidableEq, Repr

/-- Model of `Buffers::acquire_buffer` in `src/exporter.rs`: compute the
non-current index, clear that buffer, and hand out the write handle. -/
def Buffers.acquire_buffer (s : Buffers) : Buffers × MetricsBuffer :=
  let nb := s.nextBuffer
  ({ s with data := Function.update s.data nb "" }, { next_buffer := nb })

/-- Model of `MetricsBuffer::write`: append the formatted metric to the owned
buffer. -/
def MetricsBuffer.write (b : MetricsBuffer) (s : Buffers) (m : String) : Buffers :=
  { s with data := Function.update s.data b.next_buffer (s.data b.next_buffer ++ m) }

/-- Model of `Drop for MetricsBuffer` in `src/exporter.rs`: the single index
store publishing the written buffer. -/
def MetricsBuffer.dropPublish (b : MetricsBuffer) (s : Buffers) : Buffers :=
  { s with current_buffer := b.next_buffer }

/-- Model of `Buffers::get_metrics` in `src/exporter.rs`: clone of the contents of the
current buffer. -/
def Buffers.get_metrics (s : Buffers) : String :=
  s.data s.current_buffer

/-- One scoped write session: acquire the handle, perform the given
sequence of `write` calls, then drop the handle (which publishes).
This is exactly what one callback invocation in `MetricsWriter::spawn`
does with its `MetricsBuffer`. -/
def writeSession (s : Buffers) (ws : List String) : Buffers :=
  let (s1, b) := s.acquire_buffer
  b.dropPublish (ws.foldl (fun st m => b.write st m) s1)

/-! ## Scheduler wait loop (`MetricsExporterHandle::wait`) -/

/-- Control points of the `wait` loop in `src/exporter.rs`:
`check` is the top of the `loop` (about to register the notification
and load the interval); `awaitNotify` is the indefinite
`new_config.await` taken when the interval was zero; `selecting d` is
the `tokio::select!` racing a `d`-second sleep against the
notification; `returned` is the function having returned. -/
inductive WaitState where
  | check
  | awaitNotify
  | selecting (d : Nat)
  | returned
deriving DecidableEq, Repr

/-- Events that can resume a suspended `wait`. -/
inductive WaitEvent where
  | notified
  | sleepElapsed
deriving DecidableEq, Repr

/-- The top-of-loop step: load `interval_sec`; zero means wait
indefinitely for a new config, non-zero arms the sleep-vs-notify
race with that many seconds. -/
def waitCheck (interval : Nat) : WaitState :=
  if interval = 0 then .awaitNotify else .selecting interval

/-- Resumption step: what `wait` does when the event `ev` occurs while
suspended, where `i` is the value `interval_sec` reads at that moment.
At `awaitNotify` only a notification can occur (no timer is armed);
in `selecting d` an elapsed sleep returns, and a notification returns
when the re-read interval is positive and goes back to the top of the
loop otherwise. -/
def waitEventStep : WaitState → WaitEvent → Nat → WaitState
  | .awaitNotify, .notified, _ => .check
  | .awaitNotify, .sleepElapsed, _ => .awaitNotify
  | .selecting _, .sleepElapsed, _ => .returned
  | .selecting _, .notified, i => if i > 0 then .returned else .check
  | .check, _, _ => .check
  | .returned, _, _ => .returned

/-! ## Refresh loop (`MetricsWriter::spawn`) -/

/-- Observable actions of one spawned refresh loop:
`invoke` — the callback ran (acquire, fill, publish one snapshot);
`wait d` — the loop suspended in `handle.wait()` with the shared
interval reading `d` at that point; `exited` — the weak-upgrade at the
top of an iteration failed and the loop returned. -/
inductive SpawnAction where
  | invoke
  | wait (interval : Nat)
  | exited
deriving DecidableEq, Repr

/-- The loop body of `MetricsWriter::spawn` in `src/exporter.rs`, run
over a finite observation window. Each element of `iters` is one
iteration: whether `handle.upgrade()` succeeded, and the strings the
callback writes into the acquired buffer on that iteration. The
result is the action trace together with the final buffer state. -/
def spawnRun (interval : Nat) : List (Bool × List String) → Buffers →
    List SpawnAction × Buffers
  | [], s => ([], s)
  | (alive, ws) :: rest, s =>
    if alive then
      let s1 := writeSession s ws
      let (tr, sf) := spawnRun interval rest s1
      (.invoke :: .wait interval :: tr, sf)
    else
      ([.exited], s)

/-- Number of callback invocations in a trace. -/
def countInvoke (tr : List SpawnAction) : Nat :=
  (tr.filter (fun a => a = SpawnAction.invoke)).length

/-! ## Reconfiguration (`MetricsExporter::reload`) -/

/-- Model of `Config` in `src/config.rs`, with the socket address abstracted to
a bare identifier. -/
structure Config where
  listen_address : Nat
  metrics_path : String
  collection_interval_sec : Nat
deriving DecidableEq, Repr

/-- The state `reload` acts on: the mutex-guarded `running_endpoint`
slot and the shared `interval_sec` cell. A running endpoint is
identified by the configuration it serves. -/
structure ExporterState where
  running : Option Config
  interval_sec : Nat
deriving DecidableEq, Repr

/-- Externally visible steps of one `reload` call, in program order. -/
inductive ReloadAction where
  | triggerOld
  | awaitOldStopped
  | disableStore
  | tryBind (addr : Nat)
  | installEndpoint
  | storeInterval (n : Nat)
deriving DecidableEq, Repr

/-- Outcome of one `reload` call: whether it returned `Ok`, the
exporter state it leaves behind, and the trace of steps it performed. -/
structure ReloadResult where
  ok : Bool
  state : ExporterState
  trace : List ReloadAction
deriving DecidableEq, Repr

/-- Model of `MetricsExporter::reload` in `src/exporter.rs`. `canBind` is the
environment: whether `hyper::Server::try_bind` succeeds on a given
address. Program order as in the source: take and fully stop any
running endpoint first; then, with no config, store interval 0 and
return `Ok`; with a config, try to bind — on failure return the error
(the slot is already empty and the interval untouched), on success
spawn the server, install the new endpoint, and store the new
interval. -/
def MetricsExporter.reload (canBind : Nat → Bool) (s : ExporterState)
    (config : Option Config) : ReloadResult :=
  let stopped : ExporterState := { s with running := none }
  let pre : List ReloadAction :=
    match s.running with
    | some _ => [.triggerOld, .awaitOldStopped]
    | none => []
  match config with
  | none =>
    { ok := true, state := { stopped with interval_sec := 0 },
      trace := pre ++ [.disableStore] }
  | some cfg =>
    if canBind cfg.listen_address then
      { ok := true,
        state := { running := some cfg,
                   interval_sec := cfg.collection_interval_sec },
        trace := pre ++ [.tryBind cfg.listen_address, .installEndpoint,
                         .storeInterval cfg.collection_interval_sec] }
    else
      { ok := false, state := stopped,
        trace := pre ++ [.tryBind cfg.listen_address] }

/-! ## HTTP request handler (the `service_fn` closure in `reload`) -/

/-- An incoming HTTP request, reduced to what the handler inspects:
the method and the full URI. -/
structure Request where
  method : String
  uri : String
deriving DecidableEq, Repr

/-- The response the handler builds: status code, optional
`Content-Type` header, body. -/
structure Response where
  status : Nat
  contentType : Option String
  body : String
deriving DecidableEq, Repr

/-- The `service_fn` closure in `MetricsExporter::reload`
(`src/exporter.rs`): anything that is not a `GET` of exactly the
configured path gets `404 Not Found` with an empty body; a matching
request gets the default `200` status, a plain-text content type, and
the current snapshot from `Buffers::get_metrics` as the body. -/
def handleRequest (path : String) (snapshot : String) (req : Request) : Response :=
  if req.method ≠ "GET" ∨ req.uri ≠ path then
    { status := 404, contentType := none, body := "" }
  else
    { status := 200, contentType := some "text/plain; charset=UTF-8",
      body := snapshot }

/-! ## Helper lemmas: the waker association list -/

theorem lookupW_eraseW_ne (l : List (Nat × Waker)) (id j : Nat) (hj : j ≠ id) :
    lookupW (eraseW l id) j = lookupW l j := by
  induction l with
  | nil => rfl
  | cons e rest ih =>
    obtain ⟨k, v⟩ := e
    by_cases hk : k = id
    · subst hk
      have hkj : ¬ k = j := fun h => hj h.symm
      simp [eraseW, lookupW, hkj]
    · by_cases hkj : k = j
      · subst hkj
        simp [eraseW, lookupW, hk]
      · simp [eraseW, lookupW, hk, hkj, ih]

theorem not_mem_keys_lookupW (l : List (Nat × Waker)) (id : Nat)
    (h : id ∉ l.map Prod.fst) : lookupW l id = none := by
  induction l with
  | nil => rfl
  | cons e rest ih =>
    obtain ⟨k, v⟩ := e
    rw [List.map_cons, List.mem_cons] at h
    push_neg at h
    have hk : ¬ k = id := fun hkk => h.1 hkk.symm
    simp only [lookupW]
    rw [if_neg hk]
    exact ih h.2

theorem lookupW_eraseW_self (l : List (Nat × Waker)) (id : Nat)
    (h : keysNodup l) : lookupW (eraseW l id) id = none := by
  induction l with
  | nil => rfl
  | cons e rest ih =>
    obtain ⟨k, v⟩ := e
    unfold keysNodup at h
    rw [List.map_cons, List.nodup_cons] at h
    by_cases hk : k = id
    · subst hk
      simp only [eraseW, if_pos rfl]
      exact not_mem_keys_lookupW rest k h.1
    · rw [show eraseW ((k, v) :: rest) id = (k, v) :: eraseW rest id from by
        simp [eraseW, hk]]
      simp only [lookupW]
      rw [if_neg hk]
      exact ih h.2

theorem lookupW_setW_self (l : List (Nat × Waker)) (id : Nat) (w : Waker) :
    lookupW (setW l id w) id = some w := by
  induction l with
  | nil => simp [setW, lookupW]
  | cons e rest ih =>
    obtain ⟨k, v⟩ := e
    by_cases hk : k = id
    · simp [setW, hk, lookupW]
    · simp only [setW, lookupW]
      rw [if_neg hk]
      simp only [lookupW]
      rw [if_neg hk]
      exact ih

theorem lookupW_setW_ne (l : List (Nat × Waker)) (id j : Nat) (w : Waker)
    (hj : j ≠ id) : lookupW (setW l id w) j = lookupW l j := by
  induction l with
  | nil =>
    have hij : ¬ id = j := fun h => hj h.symm
    simp [setW, lookupW, hij]
  | cons e rest ih =>
    obtain ⟨k, v⟩ := e
    by_cases hk : k = id
    · subst hk
      have hkj : ¬ k = j := fun h => hj h.symm
      simp [setW, lookupW, hkj]
    · by_cases hkj : k = j
      · subst hkj
        simp [setW, lookupW, hk]
      · simp [setW, lookupW, hk, hkj, ih]

theorem keys_setW_mem (l : List (Nat × Waker)) (id : Nat) (w : Waker) (x : Nat)
    (hx : x ∈ (setW l id w).map Prod.fst) : x = id ∨ x ∈ l.map Prod.fst := by
  induction l with
  | nil =>
    rw [show setW [] id w = [(id, w)] from rfl] at hx
    rw [List.map_cons, List.map_nil, List.mem_singleton] at hx
    exact Or.inl hx
  | cons e rest ih =>
    obtain ⟨k, v⟩ := e
    rw [List.map_cons]
    by_cases hk : k = id
    · subst hk
      rw [show setW ((k, v) :: rest) k w = (k, w) :: rest from by simp [setW]] at hx
      rw [List.map_cons, List.mem_cons] at hx
      rcases hx with h1 | h1
      · exact Or.inl h1
      · exact Or.inr (List.mem_cons_of_mem _ h1)
    · rw [show setW ((k, v) :: rest) id w = (k, v) :: setW rest id w from by
        simp [setW, hk]] at hx
      rw [List.map_cons, List.mem_cons] at hx
      rcases hx with h1 | h1
      · exact Or.inr (h1 ▸ List.mem_cons_self _ _)
      · rcases ih h1 with h2 | h2
        · exact Or.inl h2
        · exact Or.inr (List.mem_cons_of_mem _ h2)

theorem keysNodup_setW (l : List (Nat × Waker)) (id : Nat) (w : Waker)
    (h : keysNodup l) : keysNodup (setW l id w) := by
  induction l with
  | nil => simp [keysNodup, setW]
  | cons e rest ih =>
    obtain ⟨k, v⟩ := e
    unfold keysNodup at h ⊢
    rw [List.map_cons, List.nodup_cons] at h
    by_cases hk : k = id
    · subst hk
      rw [show setW ((k, v) :: rest) k w = (k, w) :: rest from by simp [setW]]
      rw [List.map_cons, List.nodup_cons]
      exact h
    · rw [show setW ((k, v) :: rest) id w = (k, v) :: setW rest id w from by
        simp [setW, hk]]
      rw [List.map_cons, List.nodup_cons]
      refine ⟨fun hmem => ?_, ih h.2⟩
      rcases keys_setW_mem rest id w k hmem with h1 | h1
      · exact hk h1
      · exact h.1 h1

theorem keys_eraseW_sublist (l : List (Nat × Waker)) (id : Nat) :
    List.Sublist ((eraseW l id).map Prod.fst) (l.map Prod.fst) := by
  induction l with
  | nil => simp [eraseW]
  | cons e rest ih =>
    obtain ⟨k, v⟩ := e
    by_cases hk : k = id
    · rw [show eraseW ((k, v) :: rest) id = rest from by simp [eraseW, hk]]
      rw [List.map_cons]
      exact List.sublist_cons_self _ _
    · rw [show eraseW ((k, v) :: rest) id = (k, v) :: eraseW rest id from by
        simp [eraseW, hk]]
      rw [List.map_cons, List.map_cons]
      exact List.Sublist.cons₂ _ ih

theorem keysNodup_eraseW (l : List (Nat × Waker)) (id : Nat)
    (h : keysNodup l) : keysNodup (eraseW l id) :=
  List.Nodup.sublist (keys_eraseW_sublist l id) h

theorem keyCount_zero_of_not_mem (l : List (Nat × Waker)) (id : Nat)
    (h : id ∉ l.map Prod.fst) : keyCount l id = 0 := by
  induction l with
  | nil => rfl
  | cons e rest ih =>
    obtain ⟨k, v⟩ := e
    rw [List.map_cons, List.mem_cons] at h
    push_neg at h
    have hk : ¬ k = id := fun hkk => h.1 hkk.symm
    simp only [keyCount, List.filter_cons]
    rw [if_neg (by simpa using hk)]
    exact ih h.2

theorem keyCount_setW (l : List (Nat × Waker)) (id : Nat) (w : Waker)
    (h : keysNodup l) : keyCount (setW l id w) id = 1 := by
  induction l with
  | nil => simp [setW, keyCount]
  | cons e rest ih =>
    obtain ⟨k, v⟩ := e
    unfold keysNodup at h
    rw [List.map_cons, List.nodup_cons] at h
    by_cases hk : k = id
    · subst hk
      rw [show setW ((k, v) :: rest) k w = (k, w) :: rest from by simp [setW]]
      have h0 : keyCount rest k = 0 := keyCount_zero_of_not_mem rest k h.1
      simp only [keyCount, List.filter_cons] at h0 ⊢
      rw [if_pos (by simp)]
      simp [h0]
    · rw [show setW ((k, v) :: rest) id w = (k, v) :: setW rest id w from by
        simp [setW, hk]]
      simp only [keyCount, List.filter_cons]
      rw [if_neg (by simpa using hk)]
      exact ih h.2

/-! ## Helper lemmas: signal state invariants -/

theorem stepOp_preserves_complete (willWake : Waker → Waker → Bool)
    (s : TriggerState) (op : TOp) (h : s.complete = true) :
    (stepOp willWake s op).complete = true := by
  cases op with
  | trig => simp [stepOp, Trigger.trigger, h]
  | pollO id w => simp [stepOp, pollReceiver, h]
  | dropO id => simp [stepOp, dropReceiver, h]
  | cloneO => simpa [stepOp, cloneReceiver] using h

theorem foldl_stepOp_preserves_complete (willWake : Waker → Waker → Bool)
    (ops : List TOp) (s : TriggerState) (h : s.complete = true) :
    (ops.foldl (stepOp willWake) s).complete = true := by
  induction ops generalizing s with
  | nil => exact h
  | cons op rest ih =>
    exact ih _ (stepOp_preserves_complete willWake s op h)

theorem trigger_complete (s : TriggerState) :
    (Trigger.trigger s).1.complete = true := by
  unfold Trigger.trigger
  by_cases h : s.complete <;> simp [h]

theorem trigger_of_complete (t : TriggerState) (h : t.complete = true) :
    Trigger.trigger t = (t, []) := by
  unfold Trigger.trigger
  rw [if_pos h]

theorem stepOp_preserves_keysNodup (willWake : Waker → Waker → Bool)
    (s : TriggerState) (op : TOp) (h : keysNodup s.wakers) :
    keysNodup (stepOp willWake s op).wakers := by
  cases op with
  | trig =>
    unfold stepOp Trigger.trigger
    by_cases hc : s.complete
    · simpa [hc] using h
    · simp [hc, keysNodup]
  | pollO id w =>
    unfold stepOp pollReceiver
    by_cases hc : s.complete
    · simpa [hc] using h
    · simp only [hc, Bool.false_eq_true, if_false]
      cases hl : lookupW s.wakers id with
      | some w2 =>
        by_cases hw : willWake w w2
        · simpa [hw] using h
        · simpa [hw] using keysNodup_setW s.wakers id w h
      | none => simpa using keysNodup_setW s.wakers id w h
  | dropO id =>
    unfold stepOp dropReceiver
    by_cases hc : s.complete
    · simpa [hc] using h
    · simpa [hc] using keysNodup_eraseW s.wakers id h
  | cloneO => simpa [stepOp, cloneReceiver] using h

/-! ## Helper lemmas: double buffer sessions -/

theorem nextBuffer_ne (s : Buffers) : s.nextBuffer ≠ s.current_buffer := by
  have h2 := s.current_buffer.isLt
  unfold Buffers.nextBuffer
  intro h
  rw [Fin.ext_iff] at h
  simp only [BUFFER_COUNT] at h
  omega

theorem foldl_write_current (b : MetricsBuffer) (ws : List String) (st : Buffers) :
    (ws.foldl (fun s m => b.write s m) st).current_buffer = st.current_buffer := by
  induction ws generalizing st with
  | nil => rfl
  | cons m rest ih => rw [List.foldl_cons, ih]; rfl

theorem foldl_write_data_own (b : MetricsBuffer) (ws : List String) (st : Buffers) :
    (ws.foldl (fun s m => b.write s m) st).data b.next_buffer =
      ws.foldl (fun r m => r ++ m) (st.data b.next_buffer) := by
  induction ws generalizing st with
  | nil => rfl
  | cons m rest ih =>
    rw [List.foldl_cons, List.foldl_cons, ih]
    simp [MetricsBuffer.write, Function.update_same]

theorem foldl_write_data_other (b : MetricsBuffer) (ws : List String) (st : Buffers)
    (j : Fin 2) (hj : j ≠ b.next_buffer) :
    (ws.foldl (fun s m => b.write s m) st).data j = st.data j := by
  induction ws generalizing st with
  | nil => rfl
  | cons m rest ih =>
    rw [List.foldl_cons, ih]
    simp [MetricsBuffer.write, Function.update_noteq hj]

theorem writeSession_current (s : Buffers) (ws : List String) :
    (writeSession s ws).current_buffer = s.nextBuffer := rfl

theorem writeSession_get_metrics (s : Buffers) (ws : List String) :
    (writeSession s ws).get_metrics = String.join ws := by
  unfold writeSession Buffers.get_metrics Buffers.acquire_buffer
  simp only [MetricsBuffer.dropPublish]
  rw [foldl_write_data_own]
  simp [Function.update_same]
  rfl

theorem writeSession_preserves_old (s : Buffers) (ws : List String) :
    (writeSession s ws).data s.current_buffer = s.data s.current_buffer := by
  unfold writeSession Buffers.acquire_buffer
  simp only [MetricsBuffer.dropPublish]
  rw [foldl_write_data_other { next_buffer := s.nextBuffer } ws _ s.current_buffer
    (Ne.symm (nextBuffer_ne s))]
  simp [Function.update_noteq (Ne.symm (nextBuffer_ne s))]

theorem keyCount_one_of_lookupW_some (l : List (Nat × Waker)) (id : Nat)
    (w2 : Waker) (h : lookupW l id = some w2) (hn : keysNodup l) :
    keyCount l id = 1 := by
  induction l with
  | nil => simp [lookupW] at h
  | cons e rest ih =>
    obtain ⟨k, v⟩ := e
    unfold keysNodup at hn
    rw [List.map_cons, List.nodup_cons] at hn
    by_cases hk : k = id
    · subst hk
      have h0 : keyCount rest k = 0 := keyCount_zero_of_not_mem rest k hn.1
      simp only [keyCount, List.filter_cons] at h0 ⊢
      rw [if_pos (by simp)]
      simp [h0]
    · simp only [lookupW] at h
      rw [if_neg hk] at h
      simp only [keyCount, List.filter_cons]
      rw [if_neg (by simpa using hk)]
      exact ih h hn.2

/-! ## Claims -/

/-- C5: Firing a `Trigger` is idempotent — triggering twice leaves the same
state as triggering once, with the second call waking nobody — and once the
signal has fired it stays fired under every subsequent sequence of
operations, so every later poll of any receiver resolves immediately. -/
theorem C5_trigger_idempotent_permanent (willWake : Waker → Waker → Bool)
    (s : TriggerState) (ops : List TOp) (id : Nat) (w : Waker) :
    (Trigger.trigger (Trigger.trigger s).1).1 = (Trigger.trigger s).1
  ∧ (Trigger.trigger (Trigger.trigger s).1).2 = []
  ∧ (ops.foldl (stepOp willWake) (Trigger.trigger s).1).complete = true
  ∧ (pollReceiver willWake id w
      (ops.foldl (stepOp willWake) (Trigger.trigger s).1)).2 = Poll.ready := by
  have hc : (Trigger.trigger s).1.complete = true := trigger_complete s
  have hfold := foldl_stepOp_preserves_complete willWake ops _ hc
  have htrig := trigger_of_complete (Trigger.trigger s).1 hc
  refine ⟨?_, ?_, hfold, ?_⟩
  · rw [htrig]
  · rw [htrig]
  · unfold pollReceiver
    simp [hfold]

/-- C6: The waker map holds at most one entry per receiver id: every
operation on the signal state preserves key uniqueness; dropping an
unresolved receiver removes exactly its own entry and leaves the entries of all
other receivers unchanged; re-polling a receiver replaces its registered
waker (keeping the stored one when it would already wake the new one)
rather than adding a duplicate, leaving exactly one entry for that id and
all other entries untouched. -/
theorem C6_waker_map_no_duplicates (willWake : Waker → Waker → Bool)
    (s : TriggerState) (op : TOp) (id w j : Nat)
    (hn : keysNodup s.wakers) (hc : s.complete = false) (hj : j ≠ id) :
    keysNodup (stepOp willWake s op).wakers
  ∧ lookupW (dropReceiver id s).wakers id = none
  ∧ lookupW (dropReceiver id s).wakers j = lookupW s.wakers j
  ∧ lookupW (pollReceiver willWake id w s).1.wakers id =
      some (match lookupW s.wakers id with
            | some w2 => if willWake w w2 then w2 else w
            | none => w)
  ∧ lookupW (pollReceiver willWake id w s).1.wakers j = lookupW s.wakers j
  ∧ keyCount (pollReceiver willWake id w s).1.wakers id = 1 := by
  have hdrop : dropReceiver id s = { s with wakers := eraseW s.wakers id } := by
    unfold dropReceiver; simp [hc]
  refine ⟨stepOp_preserves_keysNodup willWake s op hn, ?_, ?_, ?_, ?_, ?_⟩
  · rw [hdrop]
    exact lookupW_eraseW_self s.wakers id hn
  · rw [hdrop]
    exact lookupW_eraseW_ne s.wakers id j hj
  · unfold pollReceiver
    simp only [hc, Bool.false_eq_true, if_false]
    cases hl : lookupW s.wakers id with
    | some w2 =>
      by_cases hw : willWake w w2
      · simp [hw, hl]
      · simp [hw, lookupW_setW_self]
    | none => simp [lookupW_setW_self]
  · unfold pollReceiver
    simp only [hc, Bool.false_eq_true, if_false]
    cases hl : lookupW s.wakers id with
    | some w2 =>
      by_cases hw : willWake w w2
      · simp [hw]
      · simp [hw, lookupW_setW_ne s.wakers id j w hj]
    | none => simp [lookupW_setW_ne s.wakers id j w hj]
  · unfold pollReceiver
    simp only [hc, Bool.false_eq_true, if_false]
    cases hl : lookupW s.wakers id with
    | some w2 =>
      by_cases hw : willWake w w2
      · simpa [hw] using keyCount_one_of_lookupW_some s.wakers id w2 hl hn
      · simpa [hw] using keyCount_setW s.wakers id w hn
    | none => simpa using keyCount_setW s.wakers id w hn

/-- Witness for C6 at a concrete signal state with two registered
receivers, re-polling receiver 0 with a fresh waker. -/
theorem C6_waker_map_no_duplicates_witness :
    keyCount (pollReceiver (fun a b => a == b) 0 9
      { complete := false, wakers := [(0, 5), (1, 6)], next_id := 2 }).1.wakers 0 = 1 :=
  (C6_waker_map_no_duplicates (fun a b => a == b)
    { complete := false, wakers := [(0, 5), (1, 6)], next_id := 2 }
    (TOp.pollO 0 9) 0 9 1 (by decide) (by decide) (by decide)).2.2.2.2.2

/-- C2: `acquire_buffer` hands out the non-current buffer — index
`(current + 1) % BUFFER_COUNT`, which differs from the current one —
after clearing its prior contents and without touching the current
buffer; over a whole acquire/write/drop session dropping the handle
publishes exactly that buffer as the new current one with exactly the
written content, while the contents of the previously current buffer are
preserved. -/
theorem C2_acquire_clears_and_drop_publishes (s : Buffers) (ws : List String) :
    ((s.acquire_buffer.2.next_buffer : Fin 2) : Nat) =
      ((s.current_buffer : Nat) + 1) % BUFFER_COUNT
  ∧ s.acquire_buffer.2.next_buffer ≠ s.current_buffer
  ∧ s.acquire_buffer.1.data s.acquire_buffer.2.next_buffer = ""
  ∧ s.acquire_buffer.1.data s.current_buffer = s.data s.current_buffer
  ∧ s.acquire_buffer.1.current_buffer = s.current_buffer
  ∧ (writeSession s ws).current_buffer = s.acquire_buffer.2.next_buffer
  ∧ (writeSession s ws).get_metrics = String.join ws
  ∧ (writeSession s ws).data s.current_buffer = s.data s.current_buffer := by
  refine ⟨rfl, nextBuffer_ne s, ?_, ?_, rfl, ?_, writeSession_get_metrics s ws,
    writeSession_preserves_old s ws⟩
  · show Function.update s.data s.nextBuffer "" s.nextBuffer = ""
    exact Function.update_same _ _ _
  · show Function.update s.data s.nextBuffer "" s.current_buffer = s.data s.current_buffer
    exact Function.update_noteq (Ne.symm (nextBuffer_ne s)) _ _
  · exact writeSession_current s ws

/-- C9: in the default-initialized buffer pair both buffers are empty and
the current index is 0, and `get_metrics` on that state returns the empty
snapshot; `get_metrics` is a total function, so no error is possible. -/
theorem C9_initial_state_empty_snapshot :
    Buffers.init.current_buffer = 0
  ∧ (∀ i : Fin 2, Buffers.init.data i = "")
  ∧ Buffers.init.get_metrics = "" :=
  ⟨rfl, fun _ => rfl, rfl⟩

/-- C3: the wait step of `MetricsExporterHandle::wait` — reading a zero
interval suspends indefinitely for a notification and re-checks when one
arrives; reading a non-zero interval arms the sleep-vs-notify race with
that many seconds, which returns when the sleep elapses, returns
immediately on a notification whose re-read interval is still non-zero,
and goes back to the indefinite wait when the re-read interval became
zero. -/
theorem C3_wait_step_behaviour (d i : Nat) (hd : d ≠ 0) (hi : 0 < i) :
    waitCheck 0 = WaitState.awaitNotify
  ∧ waitEventStep WaitState.awaitNotify WaitEvent.notified i = WaitState.check
  ∧ waitCheck d = WaitState.selecting d
  ∧ waitEventStep (WaitState.selecting d) WaitEvent.sleepElapsed i = WaitState.returned
  ∧ waitEventStep (WaitState.selecting d) WaitEvent.notified i = WaitState.returned
  ∧ waitEventStep (WaitState.selecting d) WaitEvent.notified 0 = WaitState.check := by
  refine ⟨rfl, rfl, ?_, rfl, ?_, rfl⟩
  · unfold waitCheck
    rw [if_neg hd]
  · simp only [waitEventStep]
    rw [if_pos hi]

/-- Witness for C3 with the timer armed at 5 seconds and the interval
re-reading 3 on notification. -/
theorem C3_wait_step_behaviour_witness :
    waitEventStep (WaitState.selecting 5) WaitEvent.notified 3 = WaitState.returned :=
  (C3_wait_step_behaviour 5 3 (by decide) (by decide)).2.2.2.2.1

/-- C10: when the first upgrade of the weak handle succeeds, the very first action of the
spawned refresh loop is the callback invocation — a full
acquire/fill/publish session — and only its second action is the wait;
this holds for every value of the shared interval, including 0, and after
that first invocation the published snapshot is exactly what the callback
wrote. -/
theorem C10_first_invoke_before_wait (interval : Nat) (s : Buffers)
    (ws : List String) (rest : List (Bool × List String)) :
    (∃ tr, (spawnRun interval ((true, ws) :: rest) s).1 =
      SpawnAction.invoke :: SpawnAction.wait interval :: tr)
  ∧ (writeSession s ws).get_metrics = String.join ws := by
  refine ⟨⟨(spawnRun interval rest (writeSession s ws)).1, ?_⟩,
    writeSession_get_metrics s ws⟩
  simp [spawnRun]

/-- C8: the refresh loop invokes the callback exactly once per iteration
whose weak-handle upgrade succeeds, and the first failed upgrade ends the
loop: over `n` live iterations followed by a failed upgrade, the trace
contains exactly `n` invocations and its last action is the exit, so no
invocation follows the failed upgrade. -/
theorem C8_loop_exits_after_last_owner (interval : Nat) (s : Buffers)
    (n : Nat) (ws : List String) (rest : List (Bool × List String)) :
    countInvoke (spawnRun interval
        (List.replicate n (true, ws) ++ (false, ws) :: rest) s).1 = n
  ∧ (spawnRun interval
        (List.replicate n (true, ws) ++ (false, ws) :: rest) s).1.getLast? =
      some SpawnAction.exited := by
  induction n generalizing s with
  | zero =>
    refine ⟨?_, ?_⟩ <;> simp [spawnRun, countInvoke]
  | succ n ih =>
    rw [List.replicate_succ, List.cons_append]
    have hstep : (spawnRun interval
        ((true, ws) :: (List.replicate n (true, ws) ++ (false, ws) :: rest)) s).1 =
        SpawnAction.invoke :: SpawnAction.wait interval ::
          (spawnRun interval (List.replicate n (true, ws) ++ (false, ws) :: rest)
            (writeSession s ws)).1 := by
      simp [spawnRun]
    rw [hstep]
    obtain ⟨ihc, ihl⟩ := ih (writeSession s ws)
    constructor
    · simp only [countInvoke, List.filter_cons]
      rw [if_pos (by simp), if_neg (by simp)]
      simp only [countInvoke] at ihc
      simp [ihc]
    · have hne : (spawnRun interval
          (List.replicate n (true, ws) ++ (false, ws) :: rest)
          (writeSession s ws)).1 ≠ [] := by
        intro hnil
        rw [hnil] at ihl
        simp at ihl
      cases htr : (spawnRun interval
          (List.replicate n (true, ws) ++ (false, ws) :: rest)
          (writeSession s ws)).1 with
      | nil => exact absurd htr hne
      | cons a t =>
        rw [htr] at ihl
        rw [List.getLast?_cons_cons, List.getLast?_cons_cons]
        exact ihl

/-- C4: a reload on an exporter that has a running endpoint first triggers
the completion trigger of the old endpoint and then awaits its stopped signal,
as the first two steps of the call, before any bind of a new listener or
installation of a new endpoint; the stop pair occurs nowhere else in the
trace, and the endpoint slot holds at most one endpoint throughout. -/
theorem C4_reload_stops_old_before_bind (canBind : Nat → Bool)
    (s : ExporterState) (config : Option Config) (c0 : Config)
    (h : s.running = some c0) :
    ∃ rest, (MetricsExporter.reload canBind s config).trace =
        ReloadAction.triggerOld :: ReloadAction.awaitOldStopped :: rest
      ∧ ReloadAction.triggerOld ∉ rest
      ∧ ReloadAction.awaitOldStopped ∉ rest := by
  unfold MetricsExporter.reload
  rw [h]
  cases config with
  | none =>
    exact ⟨[ReloadAction.disableStore], by simp, by simp, by simp⟩
  | some cfg =>
    by_cases hb : canBind cfg.listen_address
    · refine ⟨[ReloadAction.tryBind cfg.listen_address, ReloadAction.installEndpoint,
        ReloadAction.storeInterval cfg.collection_interval_sec], ?_, by simp, by simp⟩
      simp [hb]
    · refine ⟨[ReloadAction.tryBind cfg.listen_address], ?_, by simp, by simp⟩
      simp [hb]

/-- Witness for C4: reloading an exporter that is serving a config with a
new config; the trace starts with the stop pair. -/
theorem C4_reload_stops_old_before_bind_witness :
    ∃ rest, (MetricsExporter.reload (fun _ => true)
        { running := some { listen_address := 1, metrics_path := "/metrics",
                            collection_interval_sec := 10 },
          interval_sec := 10 }
        (some { listen_address := 2, metrics_path := "/m",
                collection_interval_sec := 5 })).trace =
        ReloadAction.triggerOld :: ReloadAction.awaitOldStopped :: rest
      ∧ ReloadAction.triggerOld ∉ rest
      ∧ ReloadAction.awaitOldStopped ∉ rest :=
  C4_reload_stops_old_before_bind (fun _ => true)
    { running := some { listen_address := 1, metrics_path := "/metrics",
                        collection_interval_sec := 10 },
      interval_sec := 10 }
    (some { listen_address := 2, metrics_path := "/m", collection_interval_sec := 5 })
    { listen_address := 1, metrics_path := "/metrics", collection_interval_sec := 10 }
    rfl

/-- C1 is refuted at this input: the exporter is serving a configuration
and `reload` is called with a config whose address cannot be bound; the
error is returned, but the exporter does not remain in its previous state
— the old endpoint was stopped and removed before the bind attempt, so
the slot is empty afterwards. -/
theorem C1_counterexample :
    (MetricsExporter.reload (fun _ => false)
        { running := some { listen_address := 1, metrics_path := "/metrics",
                            collection_interval_sec := 10 },
          interval_sec := 10 }
        (some { listen_address := 2, metrics_path := "/m",
                collection_interval_sec := 5 })).ok = false
  ∧ ({ running := some { listen_address := 1, metrics_path := "/metrics",
                         collection_interval_sec := 10 },
       interval_sec := 10 } : ExporterState).running ≠ none
  ∧ (MetricsExporter.reload (fun _ => false)
        { running := some { listen_address := 1, metrics_path := "/metrics",
                            collection_interval_sec := 10 },
          interval_sec := 10 }
        (some { listen_address := 2, metrics_path := "/m",
                collection_interval_sec := 5 })).state.running = none := by
  refine ⟨rfl, ?_, rfl⟩
  simp

/-- C1 (amended): when the requested address cannot be bound, `reload`
returns the error synchronously, installs no endpoint, and leaves the
shared interval untouched; an exporter that was Disabled remains exactly
in its previous state, while an exporter that was Running has already had
its old endpoint stopped and removed before the bind attempt, so it is
left with an empty endpoint slot rather than still serving the old
configuration. -/
theorem C1_bind_failure_amended (canBind : Nat → Bool) (s : ExporterState)
    (cfg : Config) (h : canBind cfg.listen_address = false) :
    (MetricsExporter.reload canBind s (some cfg)).ok = false
  ∧ (MetricsExporter.reload canBind s (some cfg)).state.running = none
  ∧ (MetricsExporter.reload canBind s (some cfg)).state.interval_sec = s.interval_sec
  ∧ (s.running = none → (MetricsExporter.reload canBind s (some cfg)).state = s) := by
  obtain ⟨running, interval⟩ := s
  simp only [MetricsExporter.reload]
  rw [h, if_neg Bool.false_ne_true]
  refine ⟨rfl, rfl, rfl, fun hnone => ?_⟩
  have hr : running = none := hnone
  subst hr
  rfl

/-- Witness for C1 (amended) at a previously Disabled exporter. -/
theorem C1_bind_failure_amended_witness :
    (MetricsExporter.reload (fun _ => false)
        { running := none, interval_sec := 0 }
        (some { listen_address := 2, metrics_path := "/m",
                collection_interval_sec := 5 })).state =
      { running := none, interval_sec := 0 } :=
  (C1_bind_failure_amended (fun _ => false) { running := none, interval_sec := 0 }
    { listen_address := 2, metrics_path := "/m", collection_interval_sec := 5 }
    rfl).2.2.2 rfl

/-- C7: the request handler installed by `reload` returns status 200 with
`Content-Type: text/plain; charset=UTF-8` and the snapshot verbatim as
the body exactly for a GET whose URI equals the configured path, and
status 404 with an empty body (and no content type) for any other method
or URI. -/
theorem C7_handler_get_or_404 (path snapshot : String) (req : Request) :
    (req.method = "GET" ∧ req.uri = path →
      handleRequest path snapshot req =
        { status := 200, contentType := some "text/plain; charset=UTF-8",
          body := snapshot })
  ∧ (req.method ≠ "GET" ∨ req.uri ≠ path →
      handleRequest path snapshot req =
        { status := 404, contentType := none, body := "" }) := by
  constructor
  · rintro ⟨h1, h2⟩
    unfold handleRequest
    rw [if_neg]
    push_neg
    exact ⟨h1, h2⟩
  · intro h
    unfold handleRequest
    rw [if_pos h]

/-- Witness for C7: `GET /metrics` on path `/metrics` serves the snapshot. -/
theorem C7_handler_get_or_404_witness :
    handleRequest "/metrics" "foo 1\n" { method := "GET", uri := "/metrics" } =
      { status := 200, contentType := some "text/plain; charset=UTF-8",
        body := "foo 1\n" } :=
  (C7_handler_get_or_404 "/metrics" "foo 1\n"
    { method := "GET", uri := "/metrics" }).1 ⟨rfl, rfl⟩

end Pomfrit
